import Mathlib

/-!
Shallow embedding of `TcgPlayerCardParser.py` (single-file scraper).

Python strings are modelled as `List Char`, Python `float` values as exact
rationals extended with infinities and NaN (`PyFloat`), exceptions as
`Except`, and the `set` accumulator of `main` as a `Finset`.

External collaborators (HTTP transport via `grequests`, HTML tree
construction via `BeautifulSoup`, CSV serialization via `pandas`) are
black boxes: a fetched response is modelled by its status code together
with the list of product containers the HTML parser would find in it, and
`DataFrame.to_csv` by the list of rows it writes (index column included).
-/

/-- Python strings, modelled as lists of characters. -/
abbrev PyStr := List Char

/-- `str.find(c)`: index of the first occurrence of `c`, or `-1`. -/
def pyFindAux (c : Char) : List Char → Int → Int
  | [], _ => -1
  | x :: xs, i => if x = c then i else pyFindAux c xs (i + 1)

def pyFindL (s : PyStr) (c : Char) : Int := pyFindAux c s 0

/-- Python slice `s[a:b]` with negative-index wrap-around and clamping. -/
def pySliceL (l : PyStr) (a b : Int) : PyStr :=
  let n : Int := l.length
  let lo : Nat := (if a < 0 then max (n + a) 0 else min a n).toNat
  let hi : Nat := (if b < 0 then max (n + b) 0 else min b n).toNat
  (l.take hi).drop lo

/-- Python `str.split(c)` for a one-character separator: keeps empty parts,
`"".split(c) == ['']`. -/
def splitOnChar (c : Char) : List Char → List (List Char)
  | [] => [[]]
  | x :: xs =>
    if x = c then [] :: splitOnChar c xs
    else
      match splitOnChar c xs with
      | [] => [[x]]
      | y :: ys => (x :: y) :: ys

/-- Python `str.replace(c, '')` for a one-character pattern. -/
def removeChar (c : Char) (l : PyStr) : PyStr := l.filter (fun x => x != c)

/-- Python `str.replace('\r\n', '')`: left-to-right, non-overlapping. -/
def removeCRLF : List Char → List Char
  | [] => []
  | '\r' :: '\n' :: rest => removeCRLF rest
  | x :: rest => x :: removeCRLF rest

/-- Python `str.strip()`. -/
def pyStripL (l : PyStr) : PyStr :=
  ((l.dropWhile Char.isWhitespace).reverse.dropWhile Char.isWhitespace).reverse

/-- Python `float` values: exact rationals plus the special values. -/
inductive PyFloat where
  | finite (q : ℚ)
  | inf
  | negInf
  | nan
deriving DecidableEq

def pyNegF : PyFloat → PyFloat
  | .finite q => .finite (-q)
  | .inf => .negInf
  | .negInf => .inf
  | .nan => .nan

def digitsVal (l : List Char) : Nat :=
  l.foldl (fun a c => a * 10 + (c.toNat - 48)) 0

/-- Optional exponent suffix (`e`/`E`, optional sign, digits) of a `float`
literal; the whole remainder must be consumed. -/
def parseExpTail (mant : ℚ) (l : List Char) : Option ℚ :=
  match l with
  | [] => some mant
  | c :: r =>
    if c = 'e' ∨ c = 'E' then
      let sr : Int × List Char :=
        match r with
        | '+' :: t => (1, t)
        | '-' :: t => (-1, t)
        | t => (1, t)
      let ds := sr.2.takeWhile Char.isDigit
      let rest := sr.2.dropWhile Char.isDigit
      if ds.isEmpty ∨ ¬ rest.isEmpty then none
      else some (mant * (10 : ℚ) ^ (sr.1 * (digitsVal ds : Int)))
    else none

/-- Unsigned decimal part of a `float` literal: `digits[.digits][exp]` or
`.digits[exp]` (digit-group underscores are not modelled). -/
def parseDecimalL (l : List Char) : Option ℚ :=
  let ip := l.takeWhile Char.isDigit
  let r1 := l.dropWhile Char.isDigit
  match r1 with
  | '.' :: r2 =>
    let fp := r2.takeWhile Char.isDigit
    let r3 := r2.dropWhile Char.isDigit
    if ip.isEmpty ∧ fp.isEmpty then none
    else parseExpTail ((digitsVal ip : ℚ) + (digitsVal fp : ℚ) / (10 : ℚ) ^ fp.length) r3
  | _ =>
    if ip.isEmpty then none
    else parseExpTail (digitsVal ip : ℚ) r1

/-- Unsigned magnitude of a `float` literal: `inf`, `infinity`, `nan`
(case-insensitive) or a decimal literal. -/
def parseMagnitude (l : List Char) : Option PyFloat :=
  let low := l.map Char.toLower
  if low = ("inf").toList ∨ low = ("infinity").toList then some .inf
  else if low = ("nan").toList then some .nan
  else (parseDecimalL l).map .finite

/-- Python `float(s)`: surrounding whitespace stripped, optional sign,
then a magnitude; `none` models the `ValueError`. -/
def pyFloatL (s : PyStr) : Option PyFloat :=
  match pyStripL s with
  | '+' :: r => parseMagnitude r
  | '-' :: r => (parseMagnitude r).map pyNegF
  | r => parseMagnitude r

/-- `operator.lt` on `float`s (IEEE ordering: NaN compares false). -/
def pyLt (a b : PyFloat) : Bool :=
  match a, b with
  | .nan, _ => false
  | _, .nan => false
  | .negInf, .negInf => false
  | .negInf, _ => true
  | _, .negInf => false
  | .inf, _ => false
  | .finite _, .inf => true
  | .finite x, .finite y => decide (x < y)

/-- The `CardOffer` named tuple (line 15 of the source). -/
structure CardOffer where
  card_name : PyStr
  card_price : PyFloat
deriving DecidableEq

/-- Exceptions raised inside `sanitize_card_text`:
`RuntimeError("Invalid Split Occured")`, `KeyError`, `ValueError` from
`float`. The spec groups all three under the name `MalformedOfferError`. -/
inductive ParseErr where
  | invalidSplit
  | keyMissing
  | badFloat
deriving DecidableEq

/-- Key under which the card name is stored: the quote characters are part
of the key the source looks up (`card_dict['"product_name"']`). -/
def nameKey : PyStr := ("\"product_name\"").toList

/-- Key under which the price is stored (`card_dict['"price"']`). -/
def priceKey : PyStr := ("\"price\"").toList

/-- Key normalization of line 34: `key_val[0].replace(" ", '').replace('\r\n', '')`. -/
def normKey (k : PyStr) : PyStr := removeCRLF (removeChar ' ' k)

/-- The loop of lines 30–34: split each line on `:`, require exactly two
parts, record `(normalized key, raw value)` in source order. -/
def buildPairs : List PyStr → Except ParseErr (List (PyStr × PyStr))
  | [] => .ok []
  | line :: rest =>
    match splitOnChar ':' line with
    | [k, v] => (buildPairs rest).map (fun d => (normKey k, v) :: d)
    | _ => .error .invalidSplit

/-- Python `dict` lookup where later assignments to the same key win. -/
def lookupLast (k : PyStr) : List (PyStr × PyStr) → Option PyStr
  | [] => none
  | p :: rest =>
    match lookupLast k rest with
    | some v => some v
    | none => if p.1 = k then some p.2 else none

/-- Line 25: `card_text[card_text.find('{') + 1:card_text.find('}')]`.
Lines 26–27 call `result.replace(...)` but discard the return value, so
they have no effect and are not modelled. -/
def blobSpan (s : PyStr) : PyStr :=
  pySliceL s (pyFindL s '{' + 1) (pyFindL s '}')

/-- Line 28: `result.split(',')`. -/
def blobLines (s : PyStr) : List PyStr := splitOnChar ',' (blobSpan s)

/-- The `card_dict` of lines 29–34 (or the `RuntimeError`). -/
def blobDict (s : PyStr) : Except ParseErr (List (PyStr × PyStr)) :=
  buildPairs (blobLines s)

/-- `sanitize_card_text` (lines 18–35): parse the brace span into a dict,
look up `'"product_name"'` and `'"price"'`, strip every `"` from the price
value and convert it with `float`. The name value is used raw. -/
def sanitize_card_text (card_text : PyStr) : Except ParseErr CardOffer :=
  match blobDict card_text with
  | .error e => .error e
  | .ok card_dict =>
    match lookupLast nameKey card_dict with
    | none => .error .keyMissing
    | some nameVal =>
      match lookupLast priceKey card_dict with
      | none => .error .keyMissing
      | some priceVal =>
        match pyFloatL (removeChar '"' priceVal) with
        | none => .error .badFloat
        | some price => .ok ⟨nameVal, price⟩

/-- `find_matching_offers` (lines 38–51): parse each blob, keep the offers
whose price compares truthfully against `value`, preserving order; the
first parse exception aborts the whole call. -/
def find_matching_offers (offers : List PyStr) (value : PyFloat)
    (comparison : PyFloat → PyFloat → Bool) : Except ParseErr (List CardOffer) :=
  match offers with
  | [] => .ok []
  | offer :: rest =>
    match sanitize_card_text offer with
    | .error e => .error e
    | .ok card_offer =>
      (find_matching_offers rest value comparison).map
        (fun tail => if comparison card_offer.card_price value then card_offer :: tail else tail)

/-- A `<div class="product__offers">` element: `find('script')` either
locates a script element (whose `get_text()` is the raw blob) or yields
`None`. -/
structure OffersDiv where
  script : Option PyStr
deriving DecidableEq

/-- A `<div class="product">` container: `find('div', class_='product__offers')`
either locates the offers sub-element or yields `None`. -/
structure ProductDiv where
  offersDiv : Option OffersDiv
deriving DecidableEq

/-- A fetched HTTP response: its status code and the product containers
`BeautifulSoup(...).find_all('div', class_="product")` would return. -/
structure Response where
  status_code : Nat
  content : List ProductDiv
deriving DecidableEq

/-- One step of the comprehension on line 70: `none` models the
`AttributeError` raised when the offers div or its script is absent. -/
def extractOfferText (card : ProductDiv) : Option PyStr :=
  match card.offersDiv with
  | none => none
  | some d => d.script

/-- The comprehension on line 70: left to right, the first missing
sub-element raises and aborts the whole comprehension. -/
def extractAll : List ProductDiv → Option (List PyStr)
  | [] => some []
  | card :: rest =>
    match extractOfferText card with
    | none => none
    | some t => (extractAll rest).map (fun ts => t :: ts)

/-- `scrape_page` (lines 59–73): extract the blobs of every product
container; an `AttributeError` is caught and turned into `None` (outer
`none`); otherwise the blobs are parsed and filtered, and any parse
exception escapes uncaught (the `Except` error). -/
def scrape_page (retrieved_page : Response) (value : PyFloat)
    (comparison : PyFloat → PyFloat → Bool) :
    Except ParseErr (Option (List CardOffer)) :=
  match extractAll retrieved_page.content with
  | none => .ok none
  | some offers => (find_matching_offers offers value comparison).map some

/-- Errors that can escape `main`: the `AttributeError` of calling
`.status_code` on a `None` entry of `grequests.map`, or a parse exception
re-raised by `pool.map`. -/
inductive PyErr where
  | attributeError
  | parseError (e : ParseErr)
deriving DecidableEq

/-- Line 90: `[response for response in responses if response.status_code == 200]`.
`grequests.map` yields `None` for a request that failed at transport
level, and `.status_code` on `None` raises `AttributeError`. -/
def successful_responses : List (Option Response) → Except PyErr (List Response)
  | [] => .ok []
  | none :: _ => .error .attributeError
  | some r :: rest =>
    (successful_responses rest).map
      (fun l => if r.status_code = 200 then r :: l else l)

/-- Line 93: `pool.map(scraper, successful_responses)`; a worker exception
is re-raised in the parent. -/
def pool_map (value : PyFloat) (comparison : PyFloat → PyFloat → Bool) :
    List Response → Except ParseErr (List (Option (List CardOffer)))
  | [] => .ok []
  | r :: rest =>
    match scrape_page r value comparison with
    | .error e => .error e
    | .ok x => (pool_map value comparison rest).map (fun xs => x :: xs)

/-- Line 97: the name added to the set is `offer.card_name.strip().replace('\"', '')`. -/
def normalize_name (name : PyStr) : PyStr := removeChar '"' (pyStripL name)

/-- The inner loop of lines 96–97 over one page's offer list. -/
def pageInsert (s : Finset PyStr) (l : List CardOffer) : Finset PyStr :=
  l.foldl (fun s2 o => insert (normalize_name o.card_name) s2) s

/-- One iteration of the loop on lines 94–97: `if listy:` skips both
`None` results and empty lists. -/
def aggStep (s : Finset PyStr) (listy : Option (List CardOffer)) : Finset PyStr :=
  match listy with
  | none => s
  | some l => if l.isEmpty then s else pageInsert s l

/-- The whole accumulation loop of lines 94–97 into `all_matching_cards`. -/
def aggregate_data (data : List (Option (List CardOffer))) : Finset PyStr :=
  data.foldl aggStep ∅

/-- `main` after the fetches (lines 90–97): filter responses by status,
scrape each in the pool, accumulate the normalized names. -/
def main_result (responses : List (Option Response)) (value : PyFloat)
    (comparison : PyFloat → PyFloat → Bool) : Except PyErr (Finset PyStr) :=
  match successful_responses responses with
  | .error e => .error e
  | .ok succ =>
    match pool_map value comparison succ with
    | .error e => .error (.parseError e)
    | .ok data => .ok (aggregate_data data)

/-- Lines 87–88: one `grequests.get` per page number in `range(1, 1001)`;
there is no retry loop anywhere in `main`. -/
def main_responses (fetch : Nat → Option Response) : List (Option Response) :=
  (List.range 1000).map (fun i => fetch (i + 1))

/-- `main` driven by an attempt-indexed fetch stub. Because the source
issues exactly one request per page (lines 87–88), only attempt index 0 of
the stub is ever consulted. -/
def main_with_stub (stub : Nat → Nat → Option Response) (value : PyFloat)
    (comparison : PyFloat → PyFloat → Bool) : Except PyErr (Finset PyStr) :=
  main_result (main_responses (fun p => stub p 0)) value comparison

/-- Lines 99–101: `pandas.DataFrame({"names": list(all_matching_cards)}).to_csv(...)`
writes a header row and, per name, a row holding the default integer index
and the name. -/
def to_csv_rows (names : List PyStr) : List (List PyStr) :=
  [[], ("names").toList] :: names.enum.map (fun p => [(toString p.1).toList, p.2])

/-- Modelled from the spec: the price-preserving deduplication mode
("a price-preserving mode (list of names+prices, one entry per matching
offer) must also be supported") is absent from `src/`; per the spec it
keeps one `(name, price)` entry per matching offer of every `Matched`
outcome. -/
def aggregate_price_preserving (data : List (Option (List CardOffer))) :
    List (PyStr × PyFloat) :=
  data.foldl
    (fun acc listy =>
      match listy with
      | none => acc
      | some l => acc ++ l.map (fun o => (normalize_name o.card_name, o.card_price)))
    []

deriving instance DecidableEq for Except

/-- The data-model invariant of spec §3: name non-empty after trimming
surrounding quote characters, price finite and non-negative. -/
def invariantOffer (r : CardOffer) : Bool :=
  !(((r.card_name.dropWhile (fun c => c = '"')).reverse.dropWhile
      (fun c => c = '"')).reverse.isEmpty)
  && match r.card_price with
     | .finite q => decide (0 ≤ q)
     | _ => false

/-- A blob whose span parses cleanly but whose name value is empty and
whose price is negative. -/
def invariantCexBlob : PyStr := ("\x7b\"product_name\":,\"price\":\"-1\"\x7d").toList

/-- A well-formed blob in the usual pretty-printed shape. -/
def c1CexBlob : PyStr :=
  ("\x7b\"product_name\": \"Card A\", \"price\": \"2\"\x7d").toList

/-- Blob used by the retry counterexample: one offer, name `A`, price 0. -/
def c3GoodBlob : PyStr := ("\x7b\"product_name\":\"A\",\"price\":\"0\"\x7d").toList

/-- A succeeding second-attempt response containing one matching offer. -/
def c3GoodResponse : Response := ⟨200, [⟨some ⟨some c3GoodBlob⟩⟩]⟩

/-- Fetch stub for the retry claim: page 1 fails (HTTP 500) on attempt 0
and would succeed with a matching offer on every later attempt; every
other page returns HTTP 404 with no content. -/
def c3Stub (page attempt : Nat) : Option Response :=
  if page = 1 then
    (if attempt = 0 then some ⟨500, []⟩ else some c3GoodResponse)
  else some ⟨404, []⟩

/-- Constructor for blobs made of `key:value` pairs, used to quantify over
blob contents: `{k1:v1,k2:v2,...}`. -/
def mkPair (p : PyStr × PyStr) : PyStr := p.1 ++ ':' :: p.2

def joinSep (c : Char) : List PyStr → PyStr
  | [] => []
  | [p] => p
  | p :: q :: rest => p ++ c :: joinSep c (q :: rest)

def mkBlob (pairs : List (PyStr × PyStr)) : PyStr :=
  '{' :: ((joinSep ',' (pairs.map mkPair)) ++ ['}'])

/-- Blob used by the persisted-output witness: one offer, name `B`, price 0. -/
def c10Blob : PyStr := ("\x7b\"product_name\":\"B\",\"price\":\"0\"\x7d").toList

/-- A single-product 200 response whose offer parses and matches. -/
def c10Response : Response := ⟨200, [⟨some ⟨some c10Blob⟩⟩]⟩

/-- A string avoiding the structural characters of the blob micro-format. -/
def cleanStr (l : PyStr) : Prop := ∀ ch ∈ l, ch ≠ '}' ∧ ch ≠ ',' ∧ ch ≠ ':'

instance (l : PyStr) : Decidable (cleanStr l) := by
  unfold cleanStr; infer_instance

theorem splitOnChar_of_not_mem {c : Char} {l : List Char} (h : c ∉ l) :
    splitOnChar c l = [l] := by
  induction l with
  | nil => rfl
  | cons x xs ih =>
    simp only [List.mem_cons, not_or] at h
    rw [splitOnChar, if_neg (fun hx => h.1 hx.symm), ih h.2]

theorem splitOnChar_append {c : Char} {xs ys : List Char} (h : c ∉ xs) :
    splitOnChar c (xs ++ c :: ys) = xs :: splitOnChar c ys := by
  induction xs with
  | nil => simp [splitOnChar]
  | cons x xt ih =>
    simp only [List.mem_cons, not_or] at h
    rw [List.cons_append, splitOnChar, if_neg (fun hx => h.1 hx.symm), ih h.2]

theorem not_mem_joinSep {x c : Char} (hxc : x ≠ c) :
    ∀ {parts : List (List Char)}, (∀ p ∈ parts, x ∉ p) → x ∉ joinSep c parts
  | [], _ => by simp [joinSep]
  | [p], h => by simpa [joinSep] using h p (by simp)
  | p :: q :: rest, h => by
    rw [joinSep]
    intro hmem
    rcases List.mem_append.mp hmem with hp | hc
    · exact h p (by simp) hp
    · rcases List.mem_cons.mp hc with rfl | ht
      · exact hxc rfl
      · exact not_mem_joinSep hxc (fun r hr => h r (List.mem_cons_of_mem _ hr)) ht

theorem splitOnChar_joinSep {c : Char} :
    ∀ {parts : List (List Char)}, parts ≠ [] → (∀ p ∈ parts, c ∉ p) →
      splitOnChar c (joinSep c parts) = parts
  | [], hne, _ => absurd rfl hne
  | [p], _, h => by
    rw [joinSep, splitOnChar_of_not_mem (h p (by simp))]
  | p :: q :: rest, _, h => by
    rw [joinSep, splitOnChar_append (h p (by simp)),
      splitOnChar_joinSep (by simp) (fun r hr => h r (List.mem_cons_of_mem _ hr))]

theorem pyFindAux_append {c : Char} {xs : List Char} (h : c ∉ xs) (ys : List Char)
    (i : Int) : pyFindAux c (xs ++ ys) i = pyFindAux c ys (i + xs.length) := by
  induction xs generalizing i with
  | nil => simp [pyFindAux]
  | cons x xt ih =>
    simp only [List.mem_cons, not_or] at h
    rw [List.cons_append, pyFindAux, if_neg (fun hx => h.1 hx.symm), ih h.2]
    congr 1
    simp only [List.length_cons]
    push_cast
    ring

theorem pyFindL_head (c : Char) (xs : List Char) : pyFindL (c :: xs) c = 0 := by
  simp [pyFindL, pyFindAux]

theorem pyFindL_blob {c x : Char} {mid : List Char} (hx : x ≠ c) (h : c ∉ mid) :
    pyFindL (x :: (mid ++ [c])) c = (mid.length : Int) + 1 := by
  rw [pyFindL, pyFindAux, if_neg hx, pyFindAux_append h, pyFindAux, if_pos rfl]
  omega

theorem pySliceL_interior (x y : Char) (mid : List Char) :
    pySliceL (x :: (mid ++ [y])) 1 ((mid.length : Int) + 1) = mid := by
  have hlen : (x :: (mid ++ [y])).length = mid.length + 2 := by simp
  simp only [pySliceL, hlen]
  rw [if_neg (by omega), if_neg (by omega),
    min_eq_left (by omega), min_eq_left (by omega)]
  have h1 : ((1 : Int)).toNat = 1 := rfl
  have h2 : ((mid.length : Int) + 1).toNat = mid.length + 1 := by omega
  rw [h1, h2]
  rw [List.take_succ_cons, List.take_left, List.drop_succ_cons, List.drop_zero]

theorem buildPairs_map {pairs : List (PyStr × PyStr)}
    (h : ∀ p ∈ pairs, ':' ∉ p.1 ∧ ':' ∉ p.2) :
    buildPairs (pairs.map mkPair) = .ok (pairs.map (fun p => (normKey p.1, p.2))) := by
  induction pairs with
  | nil => rfl
  | cons p rest ih =>
    have hp := h p (by simp)
    have hsp : splitOnChar ':' (mkPair p) = [p.1, p.2] := by
      rw [mkPair, splitOnChar_append hp.1, splitOnChar_of_not_mem hp.2]
    rw [List.map_cons, buildPairs, hsp,
      ih (fun r hr => h r (List.mem_cons_of_mem _ hr))]
    rfl

theorem blobSpan_mkBlob {pairs : List (PyStr × PyStr)}
    (hclean : ∀ p ∈ pairs, cleanStr p.1 ∧ cleanStr p.2) :
    blobSpan (mkBlob pairs) = joinSep ',' (pairs.map mkPair) := by
  have hparts : ∀ part ∈ pairs.map mkPair, '}' ∉ part := by
    intro part hpart
    rcases List.mem_map.mp hpart with ⟨p, hp, rfl⟩
    rw [mkPair]
    intro hmem
    rcases List.mem_append.mp hmem with h1 | h2
    · exact ((hclean p hp).1 _ h1).1 rfl
    · rcases List.mem_cons.mp h2 with he | ht
      · exact absurd he (by decide)
      · exact ((hclean p hp).2 _ ht).1 rfl
  have hmid : '}' ∉ joinSep ',' (pairs.map mkPair) :=
    not_mem_joinSep (by decide) hparts
  rw [blobSpan, mkBlob, pyFindL_head, pyFindL_blob (by decide) hmid]
  simpa using pySliceL_interior '{' '}' (joinSep ',' (pairs.map mkPair))

theorem blobDict_mkBlob {pairs : List (PyStr × PyStr)} (hne : pairs ≠ [])
    (hclean : ∀ p ∈ pairs, cleanStr p.1 ∧ cleanStr p.2) :
    blobDict (mkBlob pairs) = .ok (pairs.map (fun p => (normKey p.1, p.2))) := by
  have hcomma : ∀ part ∈ pairs.map mkPair, ',' ∉ part := by
    intro part hpart
    rcases List.mem_map.mp hpart with ⟨p, hp, rfl⟩
    rw [mkPair]
    intro hmem
    rcases List.mem_append.mp hmem with h1 | h2
    · exact ((hclean p hp).1 _ h1).2.1 rfl
    · rcases List.mem_cons.mp h2 with he | ht
      · exact absurd he (by decide)
      · exact ((hclean p hp).2 _ ht).2.1 rfl
  have hne' : pairs.map mkPair ≠ [] := by
    cases pairs with
    | nil => exact absurd rfl hne
    | cons p r => simp
  rw [blobDict, blobLines, blobSpan_mkBlob hclean, splitOnChar_joinSep hne' hcomma]
  exact buildPairs_map (fun p hp => ⟨fun hm => ((hclean p hp).1 _ hm).2.2 rfl,
    fun hm => ((hclean p hp).2 _ hm).2.2 rfl⟩)

theorem buildPairs_ok_split {lines : List PyStr} {d : List (PyStr × PyStr)}
    (h : buildPairs lines = .ok d) :
    ∀ line ∈ lines, (splitOnChar ':' line).length = 2 := by
  induction lines generalizing d with
  | nil => intro line hl; cases hl
  | cons line rest ih =>
    intro l hl
    rw [buildPairs] at h
    rcases List.mem_cons.mp hl with rfl | hmem
    · cases hsp : splitOnChar ':' l with
      | nil => rw [hsp] at h; cases h
      | cons a t =>
        cases t with
        | nil => rw [hsp] at h; cases h
        | cons b t2 =>
          cases t2 with
          | nil => rfl
          | cons e t3 => rw [hsp] at h; cases h
    · cases hsp : splitOnChar ':' line with
      | nil => rw [hsp] at h; cases h
      | cons a t =>
        cases t with
        | nil => rw [hsp] at h; cases h
        | cons b t2 =>
          cases t2 with
          | nil =>
            rw [hsp] at h
            cases hr : buildPairs rest with
            | error e => rw [hr] at h; cases h
            | ok d' => exact ih hr l hmem
          | cons e t3 => rw [hsp] at h; cases h

/-- C2 counterpart helper: an errored dict build makes the parser error. -/
theorem sanitize_of_blobDict_error {s : PyStr} {e : ParseErr}
    (h : blobDict s = .error e) : sanitize_card_text s = .error e := by
  rw [sanitize_card_text, h]

/-- C1 (corrected): on a well-formed blob whatever stands after the colon
is returned as the name verbatim — surrounding whitespace and quote
characters included — because lines 26–27 discard the results of their
`replace` calls and line 35 uses the raw dict value; only the price value
has its quote characters removed (by line 35) before `float` conversion.
Stated over an arbitrary list of key/value pairs assembled into a blob. -/
theorem sanitize_returns_untrimmed_name_and_parsed_price
    (pairs : List (PyStr × PyStr)) (nameVal priceVal : PyStr) (f : PyFloat)
    (hne : pairs ≠ [])
    (hclean : ∀ p ∈ pairs, cleanStr p.1 ∧ cleanStr p.2)
    (hname : lookupLast nameKey (pairs.map (fun p => (normKey p.1, p.2))) = some nameVal)
    (hprice : lookupLast priceKey (pairs.map (fun p => (normKey p.1, p.2))) = some priceVal)
    (hf : pyFloatL (removeChar '"' priceVal) = some f) :
    sanitize_card_text (mkBlob pairs) = .ok ⟨nameVal, f⟩ := by
  rw [sanitize_card_text, blobDict_mkBlob hne hclean]
  simp only [hname, hprice, hf]

/-- C1 counterexample: the pretty-printed blob
`{"product_name": "Card A", "price": "0.05"}` parses, but the returned
name is ` "Card A"` (leading space and quote characters kept), not the
trimmed, unquoted `Card A` the claim asserts. -/
theorem sanitize_c1_counterexample :
    sanitize_card_text c1CexBlob =
      .ok ⟨(" \"Card A\"").toList, .finite 2⟩ ∧
    (" \"Card A\"").toList ≠ ("Card A").toList := by
  constructor
  · decide
  · decide

/-- C1 witness: a concrete two-pair blob evaluated through the amended
theorem. -/
theorem sanitize_returns_untrimmed_name_witness :
    sanitize_card_text
        (mkBlob [(nameKey, (" \"Y\"").toList), (priceKey, ("\"3\"").toList)]) =
      .ok ⟨(" \"Y\"").toList, .finite 3⟩ :=
  sanitize_returns_untrimmed_name_and_parsed_price
    [(nameKey, (" \"Y\"").toList), (priceKey, ("\"3\"").toList)]
    ((" \"Y\"").toList) (("\"3\"").toList) (.finite 3)
    (by decide) (by decide) (by decide) (by decide) (by decide)

/-- C2 (confirmed): a blob with a pair that does not split into exactly two
parts on `:`, or a missing `"product_name"`/`"price"` key, or an
unparseable price value, makes `sanitize_card_text` raise (RuntimeError,
KeyError, or ValueError — the spec's `MalformedOfferError`); no record is
returned. -/
theorem sanitize_malformed_blob_errors (s : PyStr)
    (h : (∃ line ∈ blobLines s, (splitOnChar ':' line).length ≠ 2)
      ∨ ∃ d, blobDict s = .ok d ∧
          (lookupLast nameKey d = none ∨ lookupLast priceKey d = none ∨
           ∃ v, lookupLast priceKey d = some v ∧ pyFloatL (removeChar '"' v) = none)) :
    (sanitize_card_text s).isOk = false := by
  rcases h with ⟨line, hl, hlen⟩ | ⟨d, hd, hcase⟩
  · cases hd : blobDict s with
    | error e => rw [sanitize_of_blobDict_error hd]; rfl
    | ok d => exact absurd (buildPairs_ok_split hd line hl) hlen
  · rw [sanitize_card_text, hd]
    rcases hcase with hn | hp | ⟨v, hv, hfl⟩
    · simp [hn, Except.isOk, Except.toBool]
    · cases hn : lookupLast nameKey d with
      | none => simp [hn, Except.isOk, Except.toBool]
      | some nm => simp [hn, hp, Except.isOk, Except.toBool]
    · cases hn : lookupLast nameKey d with
      | none => simp [hn, Except.isOk, Except.toBool]
      | some nm => simp [hn, hv, hfl, Except.isOk, Except.toBool]

/-- C2 witness: the blob `{"a":"b"}` is missing both required keys and the
parser errors on it. -/
theorem sanitize_malformed_blob_errors_witness :
    (sanitize_card_text (("\x7b\"a\":\"b\"\x7d").toList)).isOk = false :=
  sanitize_malformed_blob_errors (("\x7b\"a\":\"b\"\x7d").toList)
    (Or.inr ⟨[(("\"a\"").toList, ("\"b\"").toList)], by decide, Or.inl (by decide)⟩)

/-- C8 counterexample: the blob `{"product_name":,"price":"-1"}` parses
successfully into a record with an empty name and a negative price, so not
every parser-produced `OfferRecord` satisfies the §3 invariant. -/
theorem offer_invariant_counterexample :
    ¬ (∀ (s : PyStr) (r : CardOffer),
        sanitize_card_text s = .ok r → invariantOffer r = true) := by
  intro h
  exact absurd (h invariantCexBlob ⟨[], .finite (-(1 : ℚ))⟩ (by decide)) (by decide)

/-- C8 (corrected): the parser enforces no data-model invariant — it
returns the raw name value (possibly empty) and whatever number `float`
produced (possibly negative), as witnessed by a concrete parse whose
record violates both halves of the invariant. -/
theorem offer_invariant_not_enforced :
    sanitize_card_text invariantCexBlob = .ok ⟨[], .finite (-(1 : ℚ))⟩ ∧
    invariantOffer ⟨[], .finite (-(1 : ℚ))⟩ = false := by
  constructor
  · decide
  · decide

theorem extractAll_eq_none {cards : List ProductDiv} {card : ProductDiv}
    (hm : card ∈ cards) (h : extractOfferText card = none) :
    extractAll cards = none := by
  induction cards with
  | nil => cases hm
  | cons c rest ih =>
    rcases List.mem_cons.mp hm with rfl | hmem
    · rw [extractAll, h]
    · cases hc : extractOfferText c with
      | none => rw [extractAll, hc]
      | some t => rw [extractAll, hc, ih hmem]; rfl

/-- C4 (confirmed): when a product container's offers sub-element is
structurally absent, the comprehension's `AttributeError` is caught and
`scrape_page` returns `None` — the empty/no-offers outcome: no exception
propagates, no partial offer list is returned, and (second conjunct) a
`None` page result contributes nothing to the accumulated set. -/
theorem scrape_page_absent_offers_empty (page : Response) (value : PyFloat)
    (comparison : PyFloat → PyFloat → Bool) (card : ProductDiv)
    (hm : card ∈ page.content) (habs : card.offersDiv = none) :
    scrape_page page value comparison = .ok none ∧
    aggregate_data [none] = (∅ : Finset PyStr) := by
  constructor
  · have hext : extractOfferText card = none := by rw [extractOfferText, habs]
    rw [scrape_page, extractAll_eq_none hm hext]
  · rfl

/-- C4 witness: a concrete page with one product whose offers div is
absent. -/
theorem scrape_page_absent_offers_empty_witness :
    scrape_page ⟨200, [⟨none⟩]⟩ (.finite 1) pyLt = .ok none ∧
    aggregate_data [none] = (∅ : Finset PyStr) :=
  scrape_page_absent_offers_empty ⟨200, [⟨none⟩]⟩ (.finite 1) pyLt ⟨none⟩
    (by decide) rfl

/-- C5 (confirmed): on blobs that all parse (the claim's "list of offer
records"), `find_matching_offers` with `operator.lt` returns exactly the
records whose price is strictly below the threshold, as a subsequence in
input order (`List.filter`); the empty list is the `records = []`
instance. Purity holds by construction: the function only builds its
result. -/
theorem find_matching_offers_filters (offers : List PyStr)
    (records : List CardOffer) (value : PyFloat)
    (h : List.Forall₂ (fun o r => sanitize_card_text o = .ok r) offers records) :
    find_matching_offers offers value pyLt =
      .ok (records.filter (fun r => pyLt r.card_price value)) := by
  induction h with
  | nil => rfl
  | @cons o r os rs h1 h2 ih =>
    rw [find_matching_offers, h1, ih, List.filter_cons]
    by_cases hc : pyLt r.card_price value
    · simp [hc, Except.map]
    · simp [hc, Except.map]

/-- C5 witness: one parsed offer with price 2 below threshold 3. -/
theorem find_matching_offers_filters_witness :
    find_matching_offers [c1CexBlob] (.finite 3) pyLt =
      .ok [⟨(" \"Card A\"").toList, .finite 2⟩] := by
  rw [find_matching_offers_filters [c1CexBlob]
    [⟨(" \"Card A\"").toList, .finite 2⟩] (.finite 3)
    (List.Forall₂.cons (by decide) List.Forall₂.nil)]
  decide

theorem mem_pageInsert {x : PyStr} {l : List CardOffer} {s : Finset PyStr} :
    x ∈ pageInsert s l ↔ x ∈ s ∨ ∃ o ∈ l, normalize_name o.card_name = x := by
  induction l generalizing s with
  | nil => simp [pageInsert]
  | cons o rest ih =>
    have hstep : pageInsert s (o :: rest) =
        pageInsert (insert (normalize_name o.card_name) s) rest := rfl
    rw [hstep, ih]
    simp only [Finset.mem_insert, List.mem_cons]
    constructor
    · rintro ((rfl | hs) | ⟨o', ho', hn⟩)
      · exact Or.inr ⟨o, Or.inl rfl, rfl⟩
      · exact Or.inl hs
      · exact Or.inr ⟨o', Or.inr ho', hn⟩
    · rintro (hs | ⟨o', (rfl | ho'), hn⟩)
      · exact Or.inl (Or.inr hs)
      · exact Or.inl (Or.inl hn.symm)
      · exact Or.inr ⟨o', ho', hn⟩

theorem mem_aggregate_foldl {x : PyStr} (data : List (Option (List CardOffer))) :
    ∀ s : Finset PyStr, x ∈ data.foldl aggStep s ↔
      x ∈ s ∨ ∃ l, Option.some l ∈ data ∧ ∃ o ∈ l, normalize_name o.card_name = x := by
  induction data with
  | nil => intro s; simp
  | cons listy rest ih =>
    intro s
    rw [List.foldl_cons, ih]
    cases listy with
    | none =>
      simp only [aggStep, List.mem_cons]
      constructor
      · rintro (hs | ⟨l, hm, ho⟩)
        · exact Or.inl hs
        · exact Or.inr ⟨l, Or.inr hm, ho⟩
      · rintro (hs | ⟨l, (hc | hm), ho⟩)
        · exact Or.inl hs
        · cases hc
        · exact Or.inr ⟨l, hm, ho⟩
    | some l =>
      by_cases he : l.isEmpty
      · have hl : l = [] := List.isEmpty_iff.mp he
        subst hl
        have hstep : aggStep s (some ([] : List CardOffer)) = s := rfl
        rw [hstep]
        simp only [List.mem_cons]
        constructor
        · rintro (hs | ⟨l', hm, ho⟩)
          · exact Or.inl hs
          · exact Or.inr ⟨l', Or.inr hm, ho⟩
        · rintro (hs | ⟨l', (hc | hm), ho⟩)
          · exact Or.inl hs
          · rcases Option.some.inj hc with rfl
            rcases ho with ⟨o, ho, _⟩
            cases ho
          · exact Or.inr ⟨l', hm, ho⟩
      · have hstep : aggStep s (some l) = pageInsert s l := by
          rw [aggStep]
          simp [he]
        rw [hstep, mem_pageInsert] -- careful: ih already rewrote; combine memberships
        simp only [List.mem_cons]
        constructor
        · rintro ((hs | ⟨o, ho, hn⟩) | ⟨l', hm, ho⟩)
          · exact Or.inl hs
          · exact Or.inr ⟨l, Or.inl rfl, o, ho, hn⟩
          · exact Or.inr ⟨l', Or.inr hm, ho⟩
        · rintro (hs | ⟨l', (hc | hm), ho⟩)
          · exact Or.inl (Or.inl hs)
          · rcases Option.some.inj hc with rfl
            exact Or.inl (Or.inr ho)
          · exact Or.inr ⟨l', hm, ho⟩

theorem mem_aggregate_data {x : PyStr} {data : List (Option (List CardOffer))} :
    x ∈ aggregate_data data ↔
      ∃ l, Option.some l ∈ data ∧ ∃ o ∈ l, normalize_name o.card_name = x := by
  rw [aggregate_data, mem_aggregate_foldl]
  simp

/-- C7 (confirmed): `all_matching_cards` is a Python `set`, and the loop of
lines 94–97 only inserts into it, so feeding the per-page results in any
permutation yields the same final set: membership depends only on which
pages are present, not on their order. -/
theorem aggregate_perm_invariant (d1 d2 : List (Option (List CardOffer)))
    (h : List.Perm d1 d2) : aggregate_data d1 = aggregate_data d2 := by
  apply Finset.ext
  intro x
  rw [mem_aggregate_data, mem_aggregate_data]
  constructor
  · rintro ⟨l, hm, ho⟩
    exact ⟨l, h.mem_iff.mp hm, ho⟩
  · rintro ⟨l, hm, ho⟩
    exact ⟨l, h.mem_iff.mpr hm, ho⟩

/-- C7 witness: swapping two page outcomes leaves the set unchanged. -/
theorem aggregate_perm_invariant_witness :
    aggregate_data [Option.some [⟨("A").toList, .finite 1⟩], Option.none] =
      aggregate_data [Option.none, Option.some [⟨("A").toList, .finite 1⟩]] :=
  aggregate_perm_invariant _ _
    (List.Perm.swap Option.none
      (Option.some [(⟨("A").toList, PyFloat.finite 1⟩ : CardOffer)]) [])

/-- C6 (confirmed; the price-preserving half is settled against the
spec-modelled `aggregate_price_preserving` because `src/` only implements
the name-keyed `set`): two page outcomes carrying records with the same
normalized name and different prices yield one entry in the name-keyed
set and two entries in the price-preserving list. -/
theorem dedup_modes_entry_counts (o1 o2 : CardOffer)
    (hname : normalize_name o1.card_name = normalize_name o2.card_name)
    (hprice : o1.card_price ≠ o2.card_price) :
    (aggregate_data [some [o1], some [o2]]).card = 1 ∧
    (aggregate_price_preserving [some [o1], some [o2]]).length = 2 := by
  constructor
  · have hagg : aggregate_data [some [o1], some [o2]] =
        insert (normalize_name o2.card_name)
          (insert (normalize_name o1.card_name) ∅) := rfl
    rw [hagg, hname, Finset.insert_idem]
    simp
  · rfl

/-- C6 witness: same name `A`, prices 1 and 2. -/
theorem dedup_modes_entry_counts_witness :
    (aggregate_data [some [⟨("A").toList, .finite 1⟩], some [⟨("A").toList, .finite 2⟩]]).card = 1 ∧
    (aggregate_price_preserving
      [some [⟨("A").toList, .finite 1⟩], some [⟨("A").toList, .finite 2⟩]]).length = 2 :=
  dedup_modes_entry_counts ⟨("A").toList, .finite 1⟩ ⟨("A").toList, .finite 2⟩
    rfl (by decide)

theorem successful_responses_all_fail :
    ∀ {responses : List (Option Response)},
      (∀ x ∈ responses, ∃ resp, x = Option.some resp ∧ resp.status_code ≠ 200) →
      successful_responses responses = .ok []
  | [], _ => rfl
  | x :: rest, h => by
    rcases h x (by simp) with ⟨resp, rfl, hst⟩
    rw [successful_responses,
      successful_responses_all_fail (fun y hy => h y (List.mem_cons_of_mem _ hy))]
    simp [hst, Except.map]

/-- C3 counterexample: with a fetch stub that fails (HTTP 500) on the first
attempt for page 1 and would succeed with a matching offer on a second
attempt, `main` still produces the empty result — the second conjunct shows
the second-attempt response really does scrape to a non-empty `Matched`
list, so a retry would have found it; no retry of any kind happens and no
`Failed` report exists. -/
theorem no_retry_counterexample :
    main_with_stub c3Stub (.finite 1) pyLt = .ok ∅ ∧
    scrape_page c3GoodResponse (.finite 1) pyLt =
      .ok (some [⟨("\"A\"").toList, .finite 0⟩]) := by
  constructor
  · have hall : ∀ x ∈ main_responses (fun p => c3Stub p 0),
        ∃ resp, x = Option.some resp ∧ resp.status_code ≠ 200 := by
      intro x hx
      rw [main_responses] at hx
      rcases List.mem_map.mp hx with ⟨i, _hi, rfl⟩
      by_cases h1 : i + 1 = 1
      · exact ⟨⟨500, []⟩, by simp [c3Stub, h1], by decide⟩
      · exact ⟨⟨404, []⟩, by simp [c3Stub, h1], by decide⟩
    rw [main_with_stub, main_result, successful_responses_all_fail hall]
    rfl
  · decide

/-- C3 (corrected): `main` performs exactly one fetch per page and has no
retry: a page whose single fetch came back with a non-200 status is
discarded exactly as if the page had never been requested — it is never
refetched, never scraped, and produces no `Failed` outcome. -/
theorem failed_fetch_discarded_without_retry (xs ys : List (Option Response))
    (r : Response) (h : r.status_code ≠ 200) (value : PyFloat)
    (comparison : PyFloat → PyFloat → Bool) :
    main_result (xs ++ Option.some r :: ys) value comparison =
      main_result (xs ++ ys) value comparison := by
  have hsucc : successful_responses (xs ++ Option.some r :: ys) =
      successful_responses (xs ++ ys) := by
    induction xs with
    | nil =>
      cases hy : successful_responses ys with
      | error e => simp [successful_responses, hy, Except.map]
      | ok l => simp [successful_responses, hy, Except.map, h]
    | cons x xt ih =>
      cases x with
      | none => rfl
      | some r' =>
        rw [List.cons_append, List.cons_append, successful_responses,
          successful_responses, ih]
  rw [main_result, main_result, hsucc]

/-- C3 witness: a lone 404 response leaves the run identical to an empty
run. -/
theorem failed_fetch_discarded_without_retry_witness :
    main_result [Option.some (⟨404, []⟩ : Response)] (.finite 1) pyLt =
      main_result [] (.finite 1) pyLt :=
  failed_fetch_discarded_without_retry [] [] ⟨404, []⟩ (by decide)
    (.finite 1) pyLt

/-- C9 counterexample: a transport-failed fetch appears as `None` in
`grequests.map`'s result, and line 90's `response.status_code` on `None`
raises `AttributeError`, crashing `main` — the `None` entry is not
silently discarded as the claim asserts. -/
theorem none_response_crashes_counterexample :
    main_result [Option.none] (PyFloat.finite 0) pyLt =
      .error .attributeError := rfl

/-- C9 (corrected): a response is kept for scraping iff its status code is
exactly 200 — any other status (404, 500, even 201) is silently dropped
with no retry and no report — but a fetch that failed at transport level
(a `None` entry) is not dropped: it raises `AttributeError`. -/
theorem status_filter_behavior (responses : List (Option Response)) :
    (Option.none ∉ responses →
      successful_responses responses =
        .ok ((responses.filterMap id).filter (fun r => r.status_code == 200)))
    ∧ (Option.none ∈ responses →
      successful_responses responses = .error .attributeError) := by
  induction responses with
  | nil =>
    constructor
    · intro _; rfl
    · intro h; cases h
  | cons x rest ih =>
    cases x with
    | none =>
      constructor
      · intro h; exact absurd (List.mem_cons_self _ _) h
      · intro _; rfl
    | some r =>
      constructor
      · intro h
        have h' : Option.none ∉ rest := fun hm => h (List.mem_cons_of_mem _ hm)
        rw [successful_responses, ih.1 h']
        by_cases hs : r.status_code = 200
        · simp [List.filterMap_cons, List.filter_cons, Except.map, hs]
        · simp [List.filterMap_cons, List.filter_cons, Except.map, hs]
      · intro h
        have h' : Option.none ∈ rest := by
          rcases List.mem_cons.mp h with hc | hm
          · cases hc
          · exact hm
        rw [successful_responses, ih.2 h']
        rfl

/-- C9 witness: a 201 response is discarded while a 200 response is kept. -/
theorem status_filter_behavior_witness :
    successful_responses
        [Option.some (⟨201, []⟩ : Response), Option.some (⟨200, []⟩ : Response)] =
      .ok [(⟨200, []⟩ : Response)] :=
  ((status_filter_behavior
      [Option.some (⟨201, []⟩ : Response), Option.some (⟨200, []⟩ : Response)]).1
    (by decide)).trans (by decide)

theorem main_result_ok {responses : List (Option Response)} {value : PyFloat}
    {comparison : PyFloat → PyFloat → Bool} {agg : Finset PyStr}
    (h : main_result responses value comparison = .ok agg) :
    ∃ succ data, successful_responses responses = .ok succ ∧
      pool_map value comparison succ = .ok data ∧ aggregate_data data = agg := by
  unfold main_result at h
  cases hs : successful_responses responses with
  | error e => simp [hs] at h
  | ok succ =>
    cases hp : pool_map value comparison succ with
    | error e => simp [hs, hp] at h
    | ok data =>
      simp [hs, hp] at h
      exact ⟨succ, data, rfl, hp, h⟩

/-- C10 (confirmed): the persisted CSV consists of a header row and one row
per deduplicated name, each row holding only the integer index and the
name; and every name in the written list originates as
`offer.card_name.strip().replace('"', '')` of some offer parsed from a
scraped page — no price is ever written. -/
theorem csv_contains_only_names (responses : List (Option Response))
    (value : PyFloat) (comparison : PyFloat → PyFloat → Bool)
    (agg : Finset PyStr) (names : List PyStr)
    (h : main_result responses value comparison = .ok agg)
    (hn : names.toFinset = agg) :
    to_csv_rows names =
      [[], ("names").toList] ::
        names.enum.map (fun p => [(toString p.1).toList, p.2])
    ∧ ∀ x ∈ names, ∃ succ data, successful_responses responses = .ok succ
        ∧ pool_map value comparison succ = .ok data
        ∧ ∃ l, Option.some l ∈ data ∧ ∃ o ∈ l, normalize_name o.card_name = x := by
  refine ⟨rfl, ?_⟩
  intro x hx
  rcases main_result_ok h with ⟨succ, data, hs, hp, hagg⟩
  have hxa : x ∈ aggregate_data data := by
    rw [hagg, ← hn]
    exact List.mem_toFinset.mpr hx
  rcases mem_aggregate_data.mp hxa with ⟨l, hm, ho⟩
  exact ⟨succ, data, hs, hp, l, hm, ho⟩

/-- C10 witness: a one-page run whose single offer `B` is persisted as the
only data row. -/
theorem csv_contains_only_names_witness :
    to_csv_rows [("B").toList] =
      [[], ("names").toList] ::
        [("B").toList].enum.map (fun p => [(toString p.1).toList, p.2]) :=
  (csv_contains_only_names [Option.some c10Response] (.finite 1) pyLt
    {("B").toList} [("B").toList] (by decide) (by decide)).1
